import Mathlib

/-!
Shallow embedding of parts of the mdapy post-processing toolkit
(replication, spatial binning, atomic entropy, the EAM calculator, the
System/MultiSystem facades) together with proofs checking the repository's
specification claims against the code.

Machine floating-point numbers are modelled by exact rationals; the
transcendental primitives (exp, log, sqrt, pi) that some kernels use are
carried as explicit function parameters, since the algebraic claims under
study hold for every choice of those primitives.  Fallible Python code
(index errors, undefined locals, missing attributes) is modelled with
`Option`/`Except` over an explicit error type.
-/

namespace Mdapy

/-- Python runtime errors that the modelled code can raise.  A Python 3
`raise "literal string"` actually raises `TypeError: exceptions must derive
from BaseException`; those sites are modelled as `typeError`. -/
inductive PyErr where
  | nameError (msg : String)
  | attributeError (msg : String)
  | typeError (msg : String)
  | valueError (msg : String)
  | indexError (msg : String)
  deriving DecidableEq

/-- 3-vectors of (exact) coordinates; `numpy` float records are modelled by
rationals.  Componentwise `+`, `-`, `0` come from the `Prod` instances. -/
abbrev Vec3 := ℚ × ℚ × ℚ

/-- Scalar times vector, componentwise (numpy broadcasting `c * v`). -/
def vscale (c : ℚ) (v : Vec3) : Vec3 := (c * v.1, c * v.2.1, c * v.2.2)

/-- Vector divided by scalar, componentwise (numpy broadcasting `v / c`). -/
def vdiv (v : Vec3) (c : ℚ) : Vec3 := (v.1 / c, v.2.1 / c, v.2.2 / c)

/-! ## Replicate (`mdapy/replicate.py`) -/

/-- A `(4, 3)` mdapy box: three edge-vector rows plus an origin row. -/
structure ReplBox where
  e0 : Vec3
  e1 : Vec3
  e2 : Vec3
  origin : Vec3
  deriving DecidableEq

namespace Replicate

/-- The box validation performed by `Replicate.__init__` on a box given in
`(4, 3)` or `(3, 3)` edge-vector form (a `(3, 3)` box is the same matrix
without the origin row, so the checked entries coincide):
`assert box[0, 1] == box[0, 2] == box[1, 2] == 0`.  Only the upper-triangle
entries are examined. -/
def boxCheck (box : Fin 4 → Fin 3 → ℚ) : Bool :=
  decide (box 0 1 = 0) && decide (box 0 2 = 0) && decide (box 1 2 = 0)

/-- Kernel `Replicate._compute`: for `(i, j, k, m)` in
`ti.ndrange(x, y, z, N)` it writes
`pos[i*(y*z*N) + j*(z*N) + k*N + m] = old_pos[m] + i*box[0] + j*box[1] + k*box[2]`.
The scatter index is exactly the lexicographic rank of `(i, j, k, m)`, so the
filled array equals this nested concatenation in iteration order. -/
def posOut (old_pos : List Vec3) (b : ReplBox) (x y z : ℕ) : List Vec3 :=
  (List.range x).flatMap fun i =>
    (List.range y).flatMap fun j =>
      (List.range z).flatMap fun k =>
        old_pos.map fun p =>
          p + vscale (i : ℚ) b.e0 + vscale (j : ℚ) b.e1 + vscale (k : ℚ) b.e2

/-- Kernel `Replicate._compute_with_type_list`: the same scatter writes
`type_list[index] = old_type_list[m]`. -/
def typeOut (old_type : List ℤ) (x y z : ℕ) : List ℤ :=
  (List.range x).flatMap fun _ =>
    (List.range y).flatMap fun _ =>
      (List.range z).flatMap fun _ => old_type

/-- `Replicate.compute`'s box update: `box[0] *= x; box[1] *= y; box[2] *= z`
on a copy, with the origin row untouched. -/
def boxOut (b : ReplBox) (x y z : ℕ) : ReplBox :=
  { e0 := vscale (x : ℚ) b.e0
    e1 := vscale (y : ℚ) b.e1
    e2 := vscale (z : ℚ) b.e2
    origin := b.origin }

/-- A diagonal box carrying one nonzero lower-triangle (tilt) entry
`box[1, 0] = 1`; used to probe the `__init__` validation. -/
def lowerTiltBox : Fin 4 → Fin 3 → ℚ := fun i j =>
  if i = 1 ∧ j = 0 then 1 else if (i : ℕ) = (j : ℕ) then 1 else 0

end Replicate

/-! ## SpatialBinning (`mdapy/spatial_binning.py`) -/

/-- The supported `direction` values of `SpatialBinning`. -/
inductive Direction where
  | x
  | y
  | z
  | xy
  | xz
  | yz
  | xyz
  deriving DecidableEq

namespace SpatialBinning

/-- The `xyz2dim` dictionary in `SpatialBinning.compute`: which coordinate
axes a direction selects. -/
def dims : Direction → List ℕ
  | .x => [0]
  | .y => [1]
  | .z => [2]
  | .xy => [0, 1]
  | .xz => [0, 2]
  | .yz => [1, 2]
  | .xyz => [0, 1, 2]

/-- Coordinate `i` (0, 1, 2 → x, y, z) of a position row. -/
def coordN (v : Vec3) (i : ℕ) : ℚ :=
  if i = 0 then v.1 else if i = 1 then v.2.1 else v.2.2

/-- Minimum of a list (`np.min`; every use in the code is on nonempty data). -/
def listMin : List ℚ → ℚ
  | [] => 0
  | q :: rest => rest.foldl min q

/-- Maximum of a list (`np.max`). -/
def listMax : List ℚ → ℚ
  | [] => 0
  | q :: rest => rest.foldl max q

/-- `np.min(self.pos, axis=0)` entry `i`. -/
def axisMin (pos : List Vec3) (i : ℕ) : ℚ := listMin (pos.map fun p => coordN p i)

/-- `np.max(self.pos, axis=0)` entry `i`. -/
def axisMax (pos : List Vec3) (i : ℕ) : ℚ := listMax (pos.map fun p => coordN p i)

/-- Per-axis bin count of `compute`:
`np.ceil(pos_delta[axis] / wbin).astype(int)` where `pos_delta` is the padded
max minus the padded min. -/
def nbinAxis (pos : List Vec3) (wbin : ℚ) (a : ℕ) : ℕ :=
  (Int.ceil (((axisMax pos a + 1 / 1000) - (axisMin pos a - 1 / 1000)) / wbin)).toNat

/-- The `coor` labels built by `compute`: for each position `i` in the
direction string it stores `np.arange(res.shape[i]) * wbin + pos_min[i] + 0.001`.
`res.shape[i]` is the bin count of the `i`-th *selected* axis, but the offset
`pos_min[i]` is the padded minimum of coordinate axis `i` — not of the
selected axis `dims[i]`. -/
def binningCoor (pos : List Vec3) (d : Direction) (wbin : ℚ) : List (List ℚ) :=
  (List.range (dims d).length).map fun (i : ℕ) =>
    (List.range (nbinAxis pos wbin ((dims d).getD i 0))).map fun (b2 : ℕ) =>
      (b2 : ℚ) * wbin + (axisMin pos i - 1 / 1000) + 1 / 1000

/-- `ti.floor((pos[i] - pos_min[0]) / wbin, dtype=ti.i32)` for one axis. -/
def binIndex (xmin wbin xi : ℚ) : ℤ := Int.floor ((xi - xmin) / wbin)

/-- In-place update of one list entry (a taichi scatter write). -/
def listModify {α : Type} (f : α → α) : ℕ → List α → List α
  | _, [] => []
  | 0, a :: t => f a :: t
  | n + 1, a :: t => a :: listModify f n t

/-- The two scatter writes of the `Binning_mean` accumulation loop for one
atom landing in a bin (single value column):
`res[cindex, 0] += 1.0; res[cindex, 1] += vbin[i, 0]`. -/
def rowBump (v : ℚ) : List ℚ → List ℚ
  | [] => []
  | [c] => [c + 1]
  | c :: s :: rest => (c + 1) :: (s + v) :: rest

/-- Accumulation phase of `Binning_mean` (equally of `Binning_sum`) for a
one-dimensional direction and a single value column.  The kernel's parallel
scatter over atoms is order-independent (all writes are `+=`), so it equals
this sequential fold over the atoms. -/
def Binning_mean_accum (xs vals : List ℚ) (xmin wbin : ℚ) (nbin : ℕ) : List (List ℚ) :=
  (xs.zip vals).foldl
    (fun res xv => listModify (rowBump xv.2) (binIndex xmin wbin xv.1).toNat res)
    (List.replicate nbin [0, 0])

/-- The normalization loop of `Binning_mean`:
`for I in ti.grouped(res): if I[I.n - 1] != 0: J := I; J[J.n - 1] := 0; res[I] /= res[J]`.
`I[I.n - 1]` is the last component of the *index* vector `I`, i.e. the column
number, so the guard only skips column 0 itself: every value column of every
bin is divided by that bin's column-0 count, occupied or not. -/
def Binning_mean_normalize (res : List (List ℚ)) : List (List ℚ) :=
  res.map fun row =>
    match row with
    | [] => []
    | c :: rest => c :: rest.map fun v => v / c

/-- Whether the normalization loop executes a division `res[I] /= res[J]`
whose denominator `res[J]` (the bin's column-0 count) is zero. -/
def Binning_mean_zero_div (res : List (List ℚ)) : Bool :=
  res.any fun row =>
    match row with
    | [] => false
    | c :: rest => decide (c = 0) && !rest.isEmpty

/-- `compute` with `direction` one-dimensional, one value column and
`operation="mean"`: padded min/max, `nbin = ceil(range/wbin)`, accumulation,
then normalization.  The second component records whether a zero-denominator
division was executed during normalization. -/
def SpatialBinning_mean1D (xs vals : List ℚ) (wbin : ℚ) : List (List ℚ) × Bool :=
  let xmin := listMin xs - 1 / 1000
  let xmax := listMax xs + 1 / 1000
  let nbin := (Int.ceil ((xmax - xmin) / wbin)).toNat
  let acc := Binning_mean_accum xs vals xmin wbin nbin
  (Binning_mean_normalize acc, Binning_mean_zero_div acc)

end SpatialBinning

/-! ## AtomicEntropy (`mdapy/entropy.py`) -/

/-- The floating-point transcendental primitives used by the entropy kernel
(`ti.exp`, `ti.log`, `np.sqrt` and the value of pi), abstracted as function
parameters: the claims under study hold for every interpretation of them. -/
structure MathOps where
  fexp : ℚ → ℚ
  flog : ℚ → ℚ
  fsqrt : ℚ → ℚ
  fpi : ℚ

/-- Sequence a list of fallible values (`none` models an out-of-bounds
access aborting the computation). -/
def seqOpt {α : Type} : List (Option α) → Option (List α)
  | [] => some []
  | none :: _ => none
  | some a :: rest => (seqOpt rest).map fun r => a :: r

/-- Run a fallible loop body over `j = 0, …, n-1` and collect the results. -/
def optRangeMap {α : Type} (n : ℕ) (f : ℕ → Option α) : Option (List α) :=
  seqOpt ((List.range n).map f)

namespace AtomicEntropy

/-- `np.linspace(a, b, n)`. -/
def linspace (a b : ℚ) (n : ℕ) : List ℚ :=
  (List.range n).map fun (j : ℕ) =>
    if n ≤ 1 then a else a + (b - a) * (j : ℚ) / ((n : ℚ) - 1)

/-- One histogram bin `j` of one atom's pseudo-RDF:
`g_m[j] = Σ_k exp(−(rlist[j]−d_k)²/(2σ²))/prefactor[j]` over the distances
`d_k ≤ rc`; the bin reads `rlist[j]` and `prefactor[j]`. -/
def gmBin (ops : MathOps) (rc sigma : ℚ) (rlist prefactor : List ℚ) (dists : List ℚ)
    (j : ℕ) : Option ℚ := do
  let rj ← rlist[j]?
  let pj ← prefactor[j]?
  pure (dists.foldl
    (fun acc d =>
      if d ≤ rc then acc + ops.fexp (-((rj - d) ^ 2) / (2 * sigma ^ 2)) / pj else acc)
    0)

/-- `n_neigh`: the number of distances ≤ `rc` (counted during the `j = 0`
bin pass of the kernel). -/
def nNeigh (rc : ℚ) (dists : List ℚ) : ℕ :=
  (dists.filter fun d => decide (d ≤ rc)).length

/-- Integrand for bin `j`:
`(g·ln g − g + 1)·rlist_sq[j]` when `g_m[j] ≥ 1e-10`, else `rlist_sq[j]`. -/
def intergradBin (ops : MathOps) (rlist_sq g : List ℚ) (j : ℕ) : Option ℚ := do
  let gj ← g[j]?
  let rsq ← rlist_sq[j]?
  pure (if 1 / 10000000000 ≤ gj then (gj * ops.flog gj - gj + 1) * rsq else rsq)

/-- One term `(intergrad[j] + intergrad[j+1])·(rlist[j+1] − rlist[j])` of the
trapezoid-style accumulation. -/
def trapzTerm (rlist ig : List ℚ) (j : ℕ) : Option ℚ := do
  let a ← ig[j]?
  let b2 ← ig[j + 1]?
  let r1 ← rlist[j]?
  let r2 ← rlist[j + 1]?
  pure ((a + b2) * (r2 - r1))

/-- The `_compute` kernel body for one atom. -/
def entropyAtom (ops : MathOps) (rc sigma global_density : ℚ) (nbins : ℕ)
    (rlist rlist_sq prefactor : List ℚ) (use_local_density : Bool) (dists : List ℚ) :
    Option ℚ := do
  let g ← optRangeMap nbins (gmBin ops rc sigma rlist prefactor dists)
  let n_neigh := nNeigh rc dists
  let density :=
    if use_local_density then (n_neigh : ℚ) / (4 / 3 * ops.fpi * rc ^ 3)
    else global_density
  let g2 :=
    if use_local_density then
      g.map fun v => v * (global_density / ((n_neigh : ℚ) / (4 / 3 * ops.fpi * rc ^ 3)))
    else g
  let ig ← optRangeMap nbins (intergradBin ops rlist_sq g2)
  let terms ← optRangeMap (nbins - 1) (trapzTerm rlist ig)
  pure (-ops.fpi * density * terms.foldl (fun a b2 => a + b2) 0)

/-- `self.global_density = self.N / self.vol`. -/
def globalDensity (vol : ℚ) (distance_list : List (List ℚ)) : ℚ :=
  (distance_list.length : ℚ) / vol

/-- `self.nbins = int(np.floor(self.rc / self.sigma) + 1)`; for the positive
`rc`, `sigma` of every use this equals `⌊rc/sigma⌋ + 1`. -/
def nbinsOf (rc sigma : ℚ) : ℕ := (Int.floor (rc / sigma) + 1).toNat

/-- `rlist = np.linspace(0.0, self.rc, self.nbins)`. -/
def rlistOf (rc sigma : ℚ) : List ℚ := linspace 0 rc (nbinsOf rc sigma)

/-- `rlist_sq = rlist**2`. -/
def rlistSqOf (rc sigma : ℚ) : List ℚ := (rlistOf rc sigma).map fun r => r ^ 2

/-- `prefactor = rlist_sq * (4*pi*global_density*sqrt(2*pi*sigma**2))`. -/
def prefactor0Of (ops : MathOps) (vol rc sigma : ℚ) (distance_list : List (List ℚ)) :
    List ℚ :=
  (rlistSqOf rc sigma).map fun rsq =>
    rsq * (4 * ops.fpi * globalDensity vol distance_list *
      ops.fsqrt (2 * ops.fpi * sigma ^ 2))

/-- `AtomicEntropy.compute`: derives the quantities above, replaces
`prefactor[0]` by `prefactor[1]` (an unconditional index-1 access), then runs
the kernel over all atoms. -/
def compute (ops : MathOps) (vol rc sigma : ℚ) (use_local_density : Bool)
    (distance_list : List (List ℚ)) : Option (List ℚ) := do
  let p1 ← (prefactor0Of ops vol rc sigma distance_list)[1]?
  seqOpt (distance_list.map
    (entropyAtom ops rc sigma (globalDensity vol distance_list) (nbinsOf rc sigma)
      (rlistOf rc sigma) (rlistSqOf rc sigma)
      ((prefactor0Of ops vol rc sigma distance_list).set 0 p1)
      use_local_density))

end AtomicEntropy

/-! ## Calculator (`src/calculator.py`) -/

/-- Python `int()` truncation toward zero of a rational. -/
def pyTrunc (q : ℚ) : ℤ := if q < 0 then -Int.floor (-q) else Int.floor q

/-- The linear interpolation pattern used throughout `_compute_energy_force`:
`k = int(rk)`, `quanzhong = rk - k` (computed *before* clamping, exactly as
in the kernel), clamp `k` to `n - 2`, then
`quanzhong*table[k+1] + (1-quanzhong)*table[k]`. -/
def interpPair (table : ℤ → ℚ) (rk : ℚ) (n : ℕ) : ℚ :=
  let k0 : ℤ := pyTrunc rk
  let quanzhong : ℚ := rk - (k0 : ℚ)
  let k : ℤ := if k0 > (n : ℤ) - 2 then (n : ℤ) - 2 else k0
  quanzhong * table (k + 1) + (1 - quanzhong) * table k

/-- The tabulated-potential data consumed by the force kernel.  Tables are
total functions of the (integer) grid index: the kernel clamps `k` to
`n - 2`, and the claim under study holds for every table contents. -/
structure EAMTables where
  dr : ℚ
  drho : ℚ
  nr : ℕ
  nrho : ℕ
  rc : ℚ
  embedded_data : ℕ → ℤ → ℚ
  phi_data : ℕ → ℕ → ℤ → ℚ
  elec_density_data : ℕ → ℤ → ℚ
  d_embedded_data : ℕ → ℤ → ℚ
  d_phi_data : ℕ → ℕ → ℤ → ℚ
  d_elec_density_data : ℕ → ℤ → ℚ

/-- One configuration as passed to `Calculator`: per-atom arrays are
functions of the row index. -/
structure CalcInput where
  N : ℕ
  verlet : ℕ → ℕ → ℕ
  distance : ℕ → ℕ → ℚ
  neighbor_number : ℕ → ℕ
  atype : ℕ → ℕ
  pos : ℕ → Vec3
  boundary : ℤ × ℤ × ℤ
  box : (ℚ × ℚ) × (ℚ × ℚ) × (ℚ × ℚ)

namespace Calculator

/-- One component of `pbc`: on a periodic axis,
`rij[i] -= box_length * ti.round(rij[i] / box_length)` (the rounding tie
behavior is irrelevant to the claims; Mathlib's `round` stands in). -/
def pbcComp (b : ℤ) (lo hi x : ℚ) : ℚ :=
  if b = 1 then x - (hi - lo) * ((round (x / (hi - lo)) : ℤ) : ℚ) else x

/-- `pbc`: minimum-image wrap of a displacement vector. -/
def pbc (c : CalcInput) (rij : Vec3) : Vec3 :=
  (pbcComp c.boundary.1 c.box.1.1 c.box.1.2 rij.1,
   pbcComp c.boundary.2.1 c.box.2.1.1 c.box.2.1.2 rij.2.1,
   pbcComp c.boundary.2.2 c.box.2.2.1 c.box.2.2.2 rij.2.2)

/-- Run a fold body over every `(i, jj)` with `i < N`,
`jj < neighbor_number[i]`, in the kernel's loop order (the kernel's scatter
updates commute, so the parallel loops equal this sequential fold). -/
def iterPairs {σ : Type} (c : CalcInput) (f : σ → ℕ → ℕ → σ) (init : σ) : σ :=
  (List.range c.N).foldl
    (fun st i =>
      (List.range (c.neighbor_number i)).foldl (fun st2 jj => f st2 i jj) st)
    init

/-- Pass 1 body: for a visited pair `(i, j)` with `j > i` within `rc`, split
the pair energy 50/50 into `energy[i]`, `energy[j]` and accumulate the
electron-density cross contributions. -/
def pass1step (t : EAMTables) (c : CalcInput) (st : (ℕ → ℚ) × (ℕ → ℚ)) (i jj : ℕ) :
    (ℕ → ℚ) × (ℕ → ℚ) :=
  let j := c.verlet i jj
  if j > i then
    let i_type := c.atype i - 1
    let j_type := c.atype j - 1
    let r := c.distance i jj
    if r ≤ t.rc then
      let rk := r / t.dr
      let pair_enegy := interpPair (t.phi_data i_type j_type) rk t.nr
      let energy1 := Function.update st.1 i (st.1 i + pair_enegy / 2)
      let energy2 := Function.update energy1 j (energy1 j + pair_enegy / 2)
      let elec1 := Function.update st.2 i
        (st.2 i + interpPair (t.elec_density_data j_type) rk t.nr)
      let elec2 := Function.update elec1 j
        (elec1 j + interpPair (t.elec_density_data i_type) rk t.nr)
      (energy2, elec2)
    else st
  else st

/-- Pass 2: per atom, add the embedding energy and record
`d_embedded_rho[i]` from the accumulated electron density. -/
def pass2 (t : EAMTables) (c : CalcInput) (energy elec : ℕ → ℚ) : (ℕ → ℚ) × (ℕ → ℚ) :=
  ((fun i => if i < c.N then
      energy i + interpPair (t.embedded_data (c.atype i - 1)) (elec i / t.drho) t.nrho
    else energy i),
   (fun i => if i < c.N then
      interpPair (t.d_embedded_data (c.atype i - 1)) (elec i / t.drho) t.nrho
    else 0))

/-- Pass 3 body: the force update of a visited pair `(i, j)` with `j > i`
within `rc`: `force[i] -= d_pair*rij/r; force[j] += d_pair*rij/r`. -/
def pass3step (t : EAMTables) (c : CalcInput) (d_embedded_rho : ℕ → ℚ)
    (force : ℕ → Vec3) (i jj : ℕ) : ℕ → Vec3 :=
  let j := c.verlet i jj
  if j > i then
    let rij := pbc c (c.pos i - c.pos j)
    let i_type := c.atype i - 1
    let j_type := c.atype j - 1
    let r := c.distance i jj
    if r ≤ t.rc then
      let rk := r / t.dr
      let d_pair0 := interpPair (t.d_phi_data i_type j_type) rk t.nr
      let d_elec_density_i := interpPair (t.d_elec_density_data j_type) rk t.nr
      let d_elec_density_j := interpPair (t.d_elec_density_data i_type) rk t.nr
      let d_pair := d_pair0 + d_embedded_rho i * d_elec_density_i +
        d_embedded_rho j * d_elec_density_j
      let dv := vdiv (vscale d_pair rij) r
      let force1 := Function.update force i (force i - dv)
      Function.update force1 j (force1 j + dv)
    else force
  else force

/-- `Calculator.compute`: zero-initialize all arrays, run pass 1 (pair
energy and electron density), pass 2 (embedding), pass 3 (forces); this is
the resulting force array. -/
def force (t : EAMTables) (c : CalcInput) : ℕ → Vec3 :=
  let p1 := iterPairs c (pass1step t c) (fun _ => 0, fun _ => 0)
  let d_embedded_rho := (pass2 t c p1.1 p1.2).2
  iterPairs c (pass3step t c d_embedded_rho) fun _ => (0 : Vec3)

end Calculator

/-- A tiny concrete two-atom table/configuration pair, used as a witness
input for the force-sum theorem. -/
def witnessTables : EAMTables :=
  { dr := 1, drho := 1, nr := 5, nrho := 5, rc := 2
    embedded_data := fun _ _ => 0
    phi_data := fun _ _ _ => 1
    elec_density_data := fun _ _ => 0
    d_embedded_data := fun _ _ => 0
    d_phi_data := fun _ _ _ => 1
    d_elec_density_data := fun _ _ => 0 }

/-- Two atoms on the x axis, each the other's sole neighbor. -/
def witnessInput : CalcInput :=
  { N := 2
    verlet := fun i _ => 1 - i
    distance := fun _ _ => 1
    neighbor_number := fun _ => 1
    atype := fun _ => 1
    pos := fun i => if i = 0 then ((0 : ℚ), (0 : ℚ), (0 : ℚ)) else ((1 : ℚ), (0 : ℚ), (0 : ℚ))
    boundary := (0, 0, 0)
    box := ((0, 10), (0, 10), (0, 10)) }

/-! ## System facade (`src/system.py`) -/

/-- Python attribute / local-variable read from an optional slot:
`AttributeError` when the attribute was never assigned. -/
def pyAttr {α : Type} (slot : Option α) (nm : String) : Except PyErr α :=
  match slot with
  | none => Except.error (PyErr.attributeError nm)
  | some a => Except.ok a

/-- The neighbor-cache fields of a `System`: `self.if_neigh` and the cached
cutoff `self.rc` (meaningful once a list was built). -/
structure NeighCache where
  if_neigh : Bool
  rc : ℚ
  deriving DecidableEq

namespace System

/-- `System.build_neighbor`: unconditionally builds a fresh list and stores
its cutoff in the cache (the cache is replaced wholesale). -/
def build_neighbor (_self : NeighCache) (rc : ℚ) : NeighCache :=
  { if_neigh := true, rc := rc }

/-- `System.cal_common_neighbor_analysis`: the local variable `Neigh` is
assigned only inside the two rebuild branches (`not self.if_neigh`, or
`self.rc != rc`); the CNA is then constructed from `Neigh.verlet_list` etc.
The `Option ℚ` component records the cutoff the local `Neigh` was built
with (`none` = never assigned); the `NeighCache` component is the updated
`self` state — only the first branch updates the cache.  Reading the
unassigned local raises `NameError`; on success the call returns the state
and the cutoff whose neighbor list fed the CNA. -/
def cal_common_neighbor_analysis (s : NeighCache) (rc : ℚ) :
    Except PyErr (NeighCache × ℚ) :=
  let stNeigh : NeighCache × Option ℚ :=
    if s.if_neigh = false then ({ if_neigh := true, rc := rc }, some rc)
    else if s.rc ≠ rc then (s, some rc)
    else (s, none)
  match stNeigh.2 with
  | some neighRc => Except.ok (stNeigh.1, neighRc)
  | none => Except.error (PyErr.nameError "name Neigh is not defined")

end System

/-- The attribute slots assigned by `MultiSystem.__init__`: the constructor
stores the flag under the (misspelled) name `unwarp`; the slot `unwrap` is
never assigned. -/
structure MSAttrs where
  sorted_id : Option Bool
  unwarp : Option Bool
  unwrap : Option Bool

namespace MultiSystem

/-- `MultiSystem.__init__` after the frame-loading loop (the claim supplies
readable frame files, so every `System(filename, ...)` succeeds and yields
`frames`): it has assigned `self.sorted_id`, `self.unwarp = unwrap` (note
the spelling) and stacked `pos_list`; it then evaluates `if self.unwrap:`,
reading an attribute that is never assigned.  On success the constructor
would return the frames (with unwrapped positions written back when
requested). -/
def init (frames : List (List Vec3)) (unwrap sorted_id : Bool) :
    Except PyErr (List (List Vec3)) := do
  let attrs : MSAttrs :=
    { sorted_id := some sorted_id, unwarp := some unwrap, unwrap := none }
  let pos_list := frames
  let u ← pyAttr attrs.unwrap "unwrap"
  if u then
    pure pos_list
  else
    pure pos_list

end MultiSystem

/-! ### `System.read_data`

The file is given pre-split: one `List String` of whitespace tokens per
line (`line.split()`), a blank line being `[]`. -/

/-- Digit-string accumulator. -/
def parseDigitsAux : List Char → ℕ → Option ℕ
  | [], acc => some acc
  | c :: rest, acc =>
    if c.isDigit then parseDigitsAux rest (acc * 10 + (c.toNat - 48)) else none

/-- Parse a nonempty digit string. -/
def parseNat? : List Char → Option ℕ
  | [] => none
  | cs => parseDigitsAux cs 0

/-- Python `int(token)` (plain optionally signed decimal notation). -/
def pyInt? (s : String) : Option ℤ :=
  match s.toList with
  | '-' :: rest => (parseNat? rest).map fun n => -(n : ℤ)
  | cs => (parseNat? cs).map fun n => (n : ℤ)

/-- Split at the first decimal point. -/
def splitDot : List Char → List Char × Option (List Char)
  | [] => ([], none)
  | '.' :: rest => ([], some rest)
  | c :: rest =>
    let r := splitDot rest
    (c :: r.1, r.2)

/-- Unsigned decimal, optionally with a fractional part. -/
def pyFloatAux (cs : List Char) : Option ℚ :=
  match splitDot cs with
  | (ip, none) => (parseNat? ip).map fun n => (n : ℚ)
  | (ip, some fp) => do
    let n ← parseNat? ip
    let f ← parseNat? fp
    pure ((n : ℚ) + (f : ℚ) / ((10 : ℚ) ^ fp.length))

/-- Python `float(token)` restricted to plain decimal notation
`[-]digits[.digits]`, the only numeric forms exercised by these claims. -/
def pyFloat? (s : String) : Option ℚ :=
  match s.toList with
  | '-' :: rest => (pyFloatAux rest).map fun q => -q
  | cs => pyFloatAux cs

/-- Python list slice `l[a:b]` with nonnegative bounds. -/
def pySlice {α : Type} (l : List α) (a b : ℕ) : List α := (l.drop a).take (b - a)

/-- The header-loop state of `read_data`: the running line index `row`
(incremented for every non-breaking line), `mass_row`, the attributes
`self.N` and `self.Ntype` (unassigned when their header line is missing)
and the `(3, 2)` box (zero-initialized by `np.zeros`). -/
structure DataHead where
  row : ℕ
  mass_row : ℕ
  n : Option ℤ
  ntype : Option ℤ
  box : (ℚ × ℚ) × (ℚ × ℚ) × (ℚ × ℚ)
  deriving DecidableEq

/-- Parse `content[0]`, `content[1]` as the two bound floats of a
`<lo> <hi> xlo xhi` line. -/
def parseBoxPair (content : List String) : Except PyErr (ℚ × ℚ) :=
  match content[0]?, content[1]? with
  | some s0, some s1 =>
    match pyFloat? s0, pyFloat? s1 with
    | some q0, some q1 => Except.ok (q0, q1)
    | _, _ => Except.error (PyErr.valueError "could not convert string to float")
  | _, _ => Except.error (PyErr.indexError "list index out of range")

/-- The header loop of `read_data`, one iteration per line; checks are
performed in source order, the loop breaks (without incrementing `row`)
when the first token is `Atoms`.  The returned flag records whether the
break happened (so `data_head` is `file[:row+1]`, else the whole file). -/
def readDataHeader : List (List String) → DataHead → Except PyErr (DataHead × Bool)
  | [], st => Except.ok (st, false)
  | content :: rest, st =>
    if content.isEmpty then readDataHeader rest { st with row := st.row + 1 }
    else do
      let last := content.getLastD ""
      let st ← (if last = "atoms" then
          match pyInt? (content.getD 0 "") with
          | none => Except.error (PyErr.valueError "invalid literal for int()")
          | some v => Except.ok { st with n := some v }
        else Except.ok st)
      let _ ← (if 2 ≤ content.length ∧ content.getD 1 "" = "bond" then
          Except.error (PyErr.typeError "raise of str: Do not support bond style.")
        else Except.ok ())
      let st ← (if 3 ≤ content.length ∧ content.getD 1 "" = "atom" ∧
            content.getD 2 "" = "types" then
          match pyInt? (content.getD 0 "") with
          | none => Except.error (PyErr.valueError "invalid literal for int()")
          | some v => Except.ok { st with ntype := some v }
        else Except.ok st)
      let st ← (if last = "xhi" then
          (parseBoxPair content).map fun p => { st with box := (p, st.box.2.1, st.box.2.2) }
        else Except.ok st)
      let st ← (if last = "yhi" then
          (parseBoxPair content).map fun p => { st with box := (st.box.1, p, st.box.2.2) }
        else Except.ok st)
      let st ← (if last = "zhi" then
          (parseBoxPair content).map fun p => { st with box := (st.box.1, st.box.2.1, p) }
        else Except.ok st)
      let _ ← (if last = "xy" ∨ last = "xz" ∨ last = "yz" then
          Except.error (PyErr.typeError "raise of str: Do not support triclinic box.")
        else Except.ok ())
      let st := if content.getD 0 "" = "Masses" then { st with mass_row := st.row + 1 } else st
      if content.getD 0 "" = "Atoms" then Except.ok (st, true)
      else readDataHeader rest { st with row := st.row + 1 }

/-- Parse a token list as floats (`np.array(..., dtype=float)` row). -/
def parseFloats : List String → Except PyErr (List ℚ)
  | [] => Except.ok []
  | s :: rest =>
    match pyFloat? s with
    | none => Except.error (PyErr.valueError "could not convert string to float")
    | some q => (parseFloats rest).map fun qs => q :: qs

/-- Per-type masses: column 1 of each row of the Masses block
(the numpy conversion also parses the other columns; the claims never
exercise a row whose other columns are malformed). -/
def parseMassRows : List (List String) → Except PyErr (List ℚ)
  | [] => Except.ok []
  | content :: rest =>
    match content[1]? with
    | none => Except.error (PyErr.indexError "index 1 is out of bounds")
    | some s =>
      match pyFloat? s with
      | none => Except.error (PyErr.valueError "could not convert string to float")
      | some q => (parseMassRows rest).map fun qs => q :: qs

/-- The atom rows, truncated to the column count (`[:, :len(col_names)]`). -/
def parseRows (ncols : ℕ) : List (List String) → Except PyErr (List (List ℚ))
  | [] => Except.ok []
  | content :: rest => do
    let q ← parseFloats (content.take ncols)
    let qs ← parseRows ncols rest
    Except.ok (q :: qs)

/-- Velocity rows: parse and drop the id column (`[:, 1:]`). -/
def parseVelRows : List (List String) → Except PyErr (List (List ℚ))
  | [] => Except.ok []
  | content :: rest => do
    let q ← parseFloats content
    let qs ← parseVelRows rest
    Except.ok (q.drop 1 :: qs)

/-- The scan for a `Velocities` line after the atom rows: every
non-breaking line (blank or not) increments `row`; the loop breaks at the
first line whose first token is `Velocities`, leaving `row` at that line. -/
def velScan : List (List String) → ℕ → Bool × ℕ
  | [], row => (false, row)
  | content :: rest, row =>
    if content.isEmpty = false ∧ content.getD 0 "" = "Velocities" then (true, row)
    else velScan rest (row + 1)

/-- The parsed result of a successful `read_data`. -/
structure DataResult where
  n : ℤ
  ntype : Option ℤ
  box : (ℚ × ℚ) × (ℚ × ℚ) × (ℚ × ℚ)
  amass : Option (List ℚ)
  data_format : String
  rows : List (List ℚ)
  vel : Option (List (List ℚ))
  deriving DecidableEq

/-- `System.read_data` (with the default `sorted_id=False`): header loop,
Masses block, atom-style determination (header token if present, else
column count of the probe row `file[row+2]`: 5 → atomic, 6 → charge,
anything else an unrecognized-format error), the `N` atom rows, then the
optional-trailing-block logic.  The locals `data` and `if_vel` are modelled
as optional slots exactly as the source assigns them: when the file
continues past the atom rows but contains no `Velocities` line, `data` is
never assigned (`self.data` → `AttributeError`); when the file ends exactly
at the atom rows, `if_vel` is never assigned (`NameError`). -/
def readData (file : List (List String)) : Except PyErr DataResult := do
  let (st, broke) ← readDataHeader file ⟨0, 0, none, none, ((0, 0), (0, 0), (0, 0))⟩
  let data_head := if broke then file.take (st.row + 1) else file
  let amass ← (if st.mass_row > 0 then do
      let ntype ← pyAttr st.ntype "Ntype"
      let ms ← parseMassRows
        (pySlice data_head (st.mass_row + 1) (st.mass_row + 1 + ntype.toNat))
      Except.ok (some ms)
    else Except.ok (none : Option (List ℚ)))
  let lastLine := data_head.getLastD []
  let lastTok ← (match lastLine.getLast? with
    | none => Except.error (PyErr.indexError "list index out of range")
    | some tk => Except.ok tk)
  let ncols ← (if lastTok = "atomic" then Except.ok 5
    else if lastTok = "charge" then Except.ok 6
    else match file[st.row + 2]? with
      | none => Except.error (PyErr.indexError "list index out of range")
      | some probe =>
        if probe.length = 5 then Except.ok 5
        else if probe.length = 6 then Except.ok 6
        else Except.error (PyErr.typeError "raise of str: Unrecgonized data format."))
  let data_format := if ncols = 5 then "atomic" else "charge"
  let n ← pyAttr st.n "N"
  let rawRows := pySlice file (st.row + 2) (st.row + 2 + n.toNat)
  let rowLen := (rawRows.headD []).length
  let _ ← (if rawRows.isEmpty then
      Except.error (PyErr.indexError "too many indices for a 1-d array")
    else if rawRows.all (fun r2 => r2.length = rowLen) = false then
      Except.error (PyErr.valueError "setting an array element with a sequence")
    else if rowLen < ncols then
      Except.error (PyErr.valueError "columns passed, passed data had fewer columns")
    else Except.ok ())
  let rows ← parseRows ncols rawRows
  let rowA := st.row + 2 + n.toNat
  let dataIfvel ← (if rowA < file.length then
      let scan := velScan (file.drop rowA) rowA
      if scan.1 then do
        let velRows ← parseVelRows (pySlice file (scan.2 + 2) (scan.2 + 2 + n.toNat))
        let _ ← (if velRows.length = rows.length then Except.ok ()
          else Except.error (PyErr.valueError "all the input array dimensions must match"))
        Except.ok (some (List.zipWith (fun r2 v => r2 ++ v) rows velRows), some true)
      else Except.ok ((none : Option (List (List ℚ))), some false)
    else Except.ok (some rows, (none : Option Bool)))
  let data ← pyAttr dataIfvel.1 "data"
  let if_vel ← (match dataIfvel.2 with
    | none => Except.error (PyErr.nameError "name if_vel is not defined")
    | some b2 => Except.ok b2)
  let vel := if if_vel then some (data.map fun r2 => r2.drop ncols) else none
  Except.ok ⟨n, st.ntype, st.box, amass, data_format,
    data.map (fun r2 => r2.take ncols), vel⟩

/-- A minimal well-formed orthogonal-box DATA file (pre-split into tokens),
atomic style (5 columns), 2 atoms, no Velocities block, the file ending
right after the last atom row. -/
def c1DataFile : List (List String) :=
  [["#", "LAMMPS", "data", "file"],
   [],
   ["2", "atoms"],
   ["1", "atom", "types"],
   [],
   ["0", "10", "xlo", "xhi"],
   ["0", "10", "ylo", "yhi"],
   ["0", "10", "zlo", "zhi"],
   [],
   ["Atoms", "#", "atomic"],
   [],
   ["1", "1", "0", "0", "0"],
   ["2", "1", "1", "1", "2"]]

/-- The same DATA file with a trailing blank line after the atom rows. -/
def c1DataFileTrailing : List (List String) := c1DataFile ++ [[]]

/-! ## Theorems -/

theorem length_flatMap_const {α β : Type} (l : List α) (f : α → List β) (L : ℕ)
    (h : ∀ a ∈ l, (f a).length = L) : (l.flatMap f).length = l.length * L := by
  induction l with
  | nil => simp
  | cons a t ih =>
    simp only [List.flatMap_cons, List.length_append, List.length_cons]
    rw [h a (List.mem_cons_self a t), ih (fun b hb => h b (List.mem_cons_of_mem a hb))]
    ring

theorem getElem?_flatMap_const {α β : Type} (l : List α) (f : α → List β) (L : ℕ)
    (h : ∀ a ∈ l, (f a).length = L) (i r : ℕ) (hr : r < L) :
    (l.flatMap f)[i * L + r]? = l[i]?.bind fun a => (f a)[r]? := by
  induction l generalizing i with
  | nil => simp
  | cons a t ih =>
    cases i with
    | zero =>
      simp only [List.flatMap_cons, Nat.zero_mul, Nat.zero_add, List.getElem?_cons_zero,
        Option.some_bind]
      rw [List.getElem?_append]
      rw [if_pos (by rw [h a (List.mem_cons_self a t)]; exact hr)]
    | succ i =>
      have hs : (i + 1) * L = i * L + L := by ring
      simp only [List.flatMap_cons, List.getElem?_cons_succ]
      rw [List.getElem?_append]
      rw [if_neg (by rw [h a (List.mem_cons_self a t)]; omega)]
      rw [h a (List.mem_cons_self a t)]
      have harith : (i + 1) * L + r - L = i * L + r := by omega
      rw [harith]
      exact ih (fun b hb => h b (List.mem_cons_of_mem a hb)) i

theorem length_flatMap_range {β : Type} (n L : ℕ) (f : ℕ → List β)
    (h : ∀ a, (f a).length = L) : ((List.range n).flatMap f).length = n * L := by
  rw [length_flatMap_const _ _ L (fun a _ => h a), List.length_range]

theorem mul_add_lt {i n r L : ℕ} (hi : i < n) (hr : r < L) : i * L + r < n * L :=
  calc i * L + r < i * L + L := by omega
    _ = (i + 1) * L := by ring
    _ ≤ n * L := Nat.mul_le_mul_right L hi

/-- C3: `Replicate.compute()` produces exactly `x·y·z·N` positions; output
index `((i·y+j)·z+k)·N+m` holds `old_pos[m] + i·edge0 + j·edge1 + k·edge2`;
the output box's edges are the input edges scaled by `(x, y, z)` with the
origin unchanged; output index 0 is atom 0's original unshifted position;
and a supplied length-`N` type list is tiled by the same index map. -/
theorem replicate_compute_spec (old_pos : List Vec3) (old_type : List ℤ) (b : ReplBox)
    (x y z : ℕ) (hx : 0 < x) (hy : 0 < y) (hz : 0 < z) (hN : 0 < old_pos.length) :
    (Replicate.posOut old_pos b x y z).length = x * y * z * old_pos.length ∧
    (∀ i j k m, i < x → j < y → k < z → m < old_pos.length →
      (Replicate.posOut old_pos b x y z)[((i * y + j) * z + k) * old_pos.length + m]? =
        (old_pos[m]?.map fun p =>
          p + vscale (i : ℚ) b.e0 + vscale (j : ℚ) b.e1 + vscale (k : ℚ) b.e2)) ∧
    (Replicate.boxOut b x y z).e0 = vscale (x : ℚ) b.e0 ∧
    (Replicate.boxOut b x y z).e1 = vscale (y : ℚ) b.e1 ∧
    (Replicate.boxOut b x y z).e2 = vscale (z : ℚ) b.e2 ∧
    (Replicate.boxOut b x y z).origin = b.origin ∧
    (Replicate.posOut old_pos b x y z)[0]? = old_pos[0]? ∧
    (old_type.length = old_pos.length →
      ∀ i j k m, i < x → j < y → k < z → m < old_pos.length →
        (Replicate.typeOut old_type x y z)[((i * y + j) * z + k) * old_pos.length + m]? =
          old_type[m]?) := by
  set N := old_pos.length with hNdef
  have key : ∀ i j k m, i < x → j < y → k < z → m < N →
      (Replicate.posOut old_pos b x y z)[((i * y + j) * z + k) * N + m]? =
        (old_pos[m]?.map fun p =>
          p + vscale (i : ℚ) b.e0 + vscale (j : ℚ) b.e1 + vscale (k : ℚ) b.e2) := by
    intro i j k m hi hj hk hm
    have hidx : ((i * y + j) * z + k) * N + m =
        i * (y * (z * N)) + (j * (z * N) + (k * N + m)) := by ring
    rw [Replicate.posOut, hidx]
    rw [getElem?_flatMap_const _ _ (y * (z * N))
      (fun a _ => length_flatMap_range y (z * N) _
        (fun a2 => length_flatMap_range z N _ (fun a3 => List.length_map _ _)))
      i _ (mul_add_lt hj (mul_add_lt hk hm))]
    rw [List.getElem?_range hi, Option.some_bind]
    rw [getElem?_flatMap_const _ _ (z * N)
      (fun a2 _ => length_flatMap_range z N _ (fun a3 => List.length_map _ _))
      j _ (mul_add_lt hk hm)]
    rw [List.getElem?_range hj, Option.some_bind]
    rw [getElem?_flatMap_const _ _ N (fun a3 _ => List.length_map _ _) k _ hm]
    rw [List.getElem?_range hk, Option.some_bind]
    rw [List.getElem?_map]
  refine ⟨?_, key, rfl, rfl, rfl, rfl, ?_, ?_⟩
  · rw [Replicate.posOut]
    rw [length_flatMap_range x (y * (z * N)) _
      (fun a => length_flatMap_range y (z * N) _
        (fun a2 => length_flatMap_range z N _ (fun a3 => List.length_map _ _)))]
    ring
  · have h0 := key 0 0 0 0 hx hy hz hN
    simp only [Nat.zero_mul, Nat.add_zero, Nat.zero_add] at h0
    rw [h0]
    cases hp : old_pos[0]? with
    | none => rfl
    | some p =>
      simp [vscale, Prod.ext_iff]
  · intro ht i j k m hi hj hk hm
    have hidx : ((i * y + j) * z + k) * N + m =
        i * (y * (z * N)) + (j * (z * N) + (k * N + m)) := by ring
    rw [Replicate.typeOut, hidx]
    rw [getElem?_flatMap_const _ _ (y * (z * N))
      (fun a _ => length_flatMap_range y (z * N) _
        (fun a2 => length_flatMap_range z N _ (fun a3 => ht)))
      i _ (mul_add_lt hj (mul_add_lt hk hm))]
    rw [List.getElem?_range hi, Option.some_bind]
    rw [getElem?_flatMap_const _ _ (z * N)
      (fun a2 _ => length_flatMap_range z N _ (fun a3 => ht))
      j _ (mul_add_lt hk hm)]
    rw [List.getElem?_range hj, Option.some_bind]
    rw [getElem?_flatMap_const _ _ N (fun a3 _ => ht) k _ hm]
    rw [List.getElem?_range hk, Option.some_bind]

/-- Witness for `replicate_compute_spec` at a concrete input. -/
theorem replicate_compute_spec_witness :
    (0 < 2 ∧ 0 < 1 ∧ 0 < ([((0 : ℚ), (0 : ℚ), (0 : ℚ)), ((1 : ℚ), (1 : ℚ), (0 : ℚ))].length)) ∧
    ((Replicate.posOut [((0 : ℚ), (0 : ℚ), (0 : ℚ)), ((1 : ℚ), (1 : ℚ), (0 : ℚ))]
        ⟨(2, 0, 0), (0, 2, 0), (0, 0, 2), (0, 0, 0)⟩ 2 1 1).length = 2 * 1 * 1 * 2) := by
  refine ⟨⟨by decide, by decide, by decide⟩, ?_⟩
  exact (replicate_compute_spec
    [((0 : ℚ), (0 : ℚ), (0 : ℚ)), ((1 : ℚ), (1 : ℚ), (0 : ℚ))] [1, 2]
    ⟨(2, 0, 0), (0, 2, 0), (0, 0, 2), (0, 0, 0)⟩ 2 1 1
    (by decide) (by decide) (by decide) (by decide)).1

/-- C4 counterexample: a box whose lower-triangle entry `box[1, 0]` is `1`
(nonzero) nevertheless passes the `Replicate.__init__` validation, so a
nonzero off-diagonal component does not always fail validation. -/
theorem replicate_box_lower_tilt_accepted :
    Replicate.boxCheck Replicate.lowerTiltBox = true ∧ Replicate.lowerTiltBox 1 0 = 1 := by
  constructor
  · simp [Replicate.boxCheck, Replicate.lowerTiltBox]
  · simp [Replicate.lowerTiltBox]

theorem ceil_eq_neg_floor_neg (q : ℚ) : ⌈q⌉ = -⌊-q⌋ := by
  rw [Int.floor_neg]; ring

/-- C6 counterexample: with atoms at coordinates 0 and 11, values `[5, 7]`
and `wbin = 5`, the accumulator has a middle bin of zero occupancy
(`[0, 0]`), yet the `operation="mean"` normalization still executes the
division of its value column by the zero count, so the normalization does
divide by a zero count. -/
theorem binning_mean_zero_count_divided :
    SpatialBinning.Binning_mean_accum [0, 11] [5, 7] (0 - 1 / 1000) 5 3 =
      [[1, 5], [0, 0], [1, 7]] ∧
    (SpatialBinning.SpatialBinning_mean1D [0, 11] [5, 7] 5).2 = true := by
  constructor
  · norm_num [SpatialBinning.Binning_mean_accum, SpatialBinning.listModify,
      SpatialBinning.rowBump, SpatialBinning.binIndex, List.zip_cons_cons,
      List.replicate_succ]
  · norm_num [SpatialBinning.SpatialBinning_mean1D, SpatialBinning.Binning_mean_accum,
      SpatialBinning.listModify, SpatialBinning.rowBump, SpatialBinning.binIndex,
      SpatialBinning.Binning_mean_zero_div, SpatialBinning.listMin, SpatialBinning.listMax,
      List.zip_cons_cons, List.replicate_succ, min_def, max_def, ceil_eq_neg_floor_neg]

/-- C6 amended: after accumulation, *every* value column (column index ≥ 1)
of *every* bin is divided by that bin's column-0 count — the guard in the
normalization loop tests the column index, not the occupancy — so bins with
zero occupancy are divided as well (a 0/0 for their value columns); only
column 0 itself is left unchanged. -/
theorem binning_mean_divides_every_bin (res : List (List ℚ)) (b j : ℕ) (row : List ℚ)
    (hb : res[b]? = some row) (hj : j ≠ 0) :
    ((SpatialBinning.Binning_mean_normalize res)[b]?.bind fun r => r[j]?) =
      (row[j]?.map fun v => v / row.headD 0) ∧
    ((SpatialBinning.Binning_mean_normalize res)[b]?.bind fun r => r[0]?) = row[0]? := by
  have hmap : (SpatialBinning.Binning_mean_normalize res)[b]? =
      (res[b]?).map fun row =>
        match row with
        | [] => ([] : List ℚ)
        | c :: rest => c :: rest.map fun v => v / c := by
    rw [SpatialBinning.Binning_mean_normalize, List.getElem?_map]
  rw [hmap, hb]
  cases row with
  | nil => simp
  | cons c rest =>
    refine ⟨?_, by simp⟩
    cases j with
    | zero => exact absurd rfl hj
    | succ j2 => simp

/-- Witness for `binning_mean_divides_every_bin` at a concrete bin. -/
theorem binning_mean_divides_every_bin_witness :
    (([[2, 8]] : List (List ℚ))[0]? = some [2, 8] ∧ (1 : ℕ) ≠ 0) ∧
    ((SpatialBinning.Binning_mean_normalize [[2, 8]])[0]?.bind fun r => r[1]?) =
      ((([2, 8] : List ℚ))[1]?.map fun v => v / (([2, 8] : List ℚ)).headD 0) :=
  ⟨⟨rfl, by decide⟩,
    (binning_mean_divides_every_bin [[2, 8]] 0 1 [2, 8] rfl (by decide)).1⟩

/-- C7 (evaluation at the failing input): for direction `"yz"` with atoms
`(0,5,10)` and `(1,6,12)` and `wbin = 5`, `compute` returns the labels
`[[0], [5]]`: the `"y"` label list is offset by the x-axis minimum (0) and
the `"z"` label list by the y-axis minimum (5), not by the selected axes'
own minima, which are 5 and 10. -/
theorem binning_coor_uses_positional_axis_min :
    SpatialBinning.binningCoor [((0 : ℚ), (5 : ℚ), (10 : ℚ)), ((1 : ℚ), (6 : ℚ), (12 : ℚ))]
        Direction.yz 5 = [[0], [5]] ∧
    SpatialBinning.axisMin [((0 : ℚ), (5 : ℚ), (10 : ℚ)), ((1 : ℚ), (6 : ℚ), (12 : ℚ))] 1 = 5 ∧
    SpatialBinning.axisMin [((0 : ℚ), (5 : ℚ), (10 : ℚ)), ((1 : ℚ), (6 : ℚ), (12 : ℚ))] 2 = 10 := by
  refine ⟨?_, ?_, ?_⟩ <;>
    norm_num [SpatialBinning.binningCoor, SpatialBinning.dims, SpatialBinning.nbinAxis,
      SpatialBinning.axisMin, SpatialBinning.axisMax, SpatialBinning.listMin,
      SpatialBinning.listMax, SpatialBinning.coordN, min_def, max_def,
      ceil_eq_neg_floor_neg, List.range_succ]

theorem isSome_getElem? {α : Type} (l : List α) (i : ℕ) : l[i]?.isSome ↔ i < l.length := by
  rcases lt_or_ge i l.length with h | h
  · simp [List.getElem?_eq_getElem h, h]
  · simp [List.getElem?_eq_none h]; omega

theorem seqOpt_isSome_iff {α : Type} (l : List (Option α)) :
    (seqOpt l).isSome ↔ ∀ o ∈ l, o.isSome := by
  induction l with
  | nil => simp [seqOpt]
  | cons a t ih =>
    cases a with
    | none => simp [seqOpt]
    | some v => simp [seqOpt, ih]

theorem seqOpt_length {α : Type} (l : List (Option α)) (r : List α)
    (h : seqOpt l = some r) : r.length = l.length := by
  induction l generalizing r with
  | nil =>
    simp only [seqOpt, Option.some_inj] at h
    subst h; rfl
  | cons a t ih =>
    cases a with
    | none => simp [seqOpt] at h
    | some v =>
      simp only [seqOpt] at h
      cases ht : seqOpt t with
      | none => rw [ht] at h; simp at h
      | some rt =>
        rw [ht] at h
        simp only [Option.map_some', Option.some_inj] at h
        subst h
        simp [ih rt ht]

theorem seqOpt_getElem? {α : Type} (l : List (Option α)) (r : List α)
    (h : seqOpt l = some r) (i : ℕ) : r[i]? = l[i]?.bind id := by
  induction l generalizing r i with
  | nil =>
    simp only [seqOpt, Option.some_inj] at h
    subst h; simp
  | cons a t ih =>
    cases a with
    | none => simp [seqOpt] at h
    | some v =>
      simp only [seqOpt] at h
      cases ht : seqOpt t with
      | none => rw [ht] at h; simp at h
      | some rt =>
        rw [ht] at h
        simp only [Option.map_some', Option.some_inj] at h
        subst h
        cases i with
        | zero => simp
        | succ i2 => simpa using ih rt ht i2

theorem optRangeMap_isSome_iff {α : Type} (n : ℕ) (f : ℕ → Option α) :
    (optRangeMap n f).isSome ↔ ∀ j < n, (f j).isSome := by
  rw [optRangeMap, seqOpt_isSome_iff]
  constructor
  · intro h j hj
    exact h (f j) (List.mem_map_of_mem f (List.mem_range.mpr hj))
  · rintro h o ho
    obtain ⟨j, hj, rfl⟩ := List.mem_map.mp ho
    exact h j (List.mem_range.mp hj)

theorem optRangeMap_length {α : Type} (n : ℕ) (f : ℕ → Option α) (r : List α)
    (h : optRangeMap n f = some r) : r.length = n := by
  have := seqOpt_length _ _ h
  simpa using this

theorem optRangeMap_getElem? {α : Type} (n : ℕ) (f : ℕ → Option α) (r : List α)
    (h : optRangeMap n f = some r) (j : ℕ) (hj : j < n) : r[j]? = f j := by
  have := seqOpt_getElem? _ _ h j
  rw [List.getElem?_map, List.getElem?_range hj] at this
  simpa using this

theorem gmBin_isSome (ops : MathOps) (rc sigma : ℚ) (rl pf d : List ℚ) (j : ℕ)
    (h1 : j < rl.length) (h2 : j < pf.length) :
    (AtomicEntropy.gmBin ops rc sigma rl pf d j).isSome := by
  rw [AtomicEntropy.gmBin, List.getElem?_eq_getElem h1, List.getElem?_eq_getElem h2]
  rfl

theorem intergradBin_isSome (ops : MathOps) (rsq g : List ℚ) (j : ℕ)
    (h1 : j < g.length) (h2 : j < rsq.length) :
    (AtomicEntropy.intergradBin ops rsq g j).isSome := by
  rw [AtomicEntropy.intergradBin, List.getElem?_eq_getElem h1, List.getElem?_eq_getElem h2]
  rfl

theorem trapzTerm_isSome (rl ig : List ℚ) (j : ℕ)
    (h1 : j + 1 < ig.length) (h2 : j + 1 < rl.length) :
    (AtomicEntropy.trapzTerm rl ig j).isSome := by
  rw [AtomicEntropy.trapzTerm, List.getElem?_eq_getElem h1, List.getElem?_eq_getElem h2,
    List.getElem?_eq_getElem (Nat.lt_of_succ_lt h1),
    List.getElem?_eq_getElem (Nat.lt_of_succ_lt h2)]
  rfl

theorem entropyAtom_isSome (ops : MathOps) (rc sigma gd : ℚ) (nbins : ℕ)
    (rl rsq pf : List ℚ) (b : Bool) (d : List ℚ)
    (hrl : rl.length = nbins) (hrsq : rsq.length = nbins) (hpf : pf.length = nbins) :
    (AtomicEntropy.entropyAtom ops rc sigma gd nbins rl rsq pf b d).isSome := by
  have hg : (optRangeMap nbins (AtomicEntropy.gmBin ops rc sigma rl pf d)).isSome :=
    (optRangeMap_isSome_iff _ _).mpr fun j hj =>
      gmBin_isSome ops rc sigma rl pf d j (hrl ▸ hj) (hpf ▸ hj)
  obtain ⟨g, hgeq⟩ := Option.isSome_iff_exists.mp hg
  have hglen : g.length = nbins := optRangeMap_length _ _ _ hgeq
  have hg2len : (if b then
      g.map fun v => v *
        (gd / ((AtomicEntropy.nNeigh rc d : ℚ) / (4 / 3 * ops.fpi * rc ^ 3)))
    else g).length = nbins := by
    cases b <;> simp [hglen]
  have hig : (optRangeMap nbins (AtomicEntropy.intergradBin ops rsq
      (if b then
        g.map fun v => v *
          (gd / ((AtomicEntropy.nNeigh rc d : ℚ) / (4 / 3 * ops.fpi * rc ^ 3)))
      else g))).isSome :=
    (optRangeMap_isSome_iff _ _).mpr fun j hj =>
      intergradBin_isSome ops rsq _ j (hg2len ▸ hj) (hrsq ▸ hj)
  obtain ⟨ig, higeq⟩ := Option.isSome_iff_exists.mp hig
  have higlen : ig.length = nbins := optRangeMap_length _ _ _ higeq
  have hterms : (optRangeMap (nbins - 1) (AtomicEntropy.trapzTerm rl ig)).isSome :=
    (optRangeMap_isSome_iff _ _).mpr fun j hj =>
      trapzTerm_isSome rl ig j (by omega) (by omega)
  obtain ⟨terms, htermseq⟩ := Option.isSome_iff_exists.mp hterms
  rw [AtomicEntropy.entropyAtom]
  cases b with
  | false =>
    simp only [Bool.false_eq_true, if_false] at hg2len hig higeq ⊢
    rw [hgeq]
    simp only [Option.pure_def, Option.bind_eq_bind, Option.some_bind]
    rw [higeq]
    simp only [Option.some_bind]
    rw [htermseq]
    simp only [Option.some_bind, Option.isSome_some]
  | true =>
    simp only [if_true] at hg2len hig higeq ⊢
    rw [hgeq]
    simp only [Option.pure_def, Option.bind_eq_bind, Option.some_bind]
    rw [higeq]
    simp only [Option.some_bind]
    rw [htermseq]
    simp only [Option.some_bind, Option.isSome_some]

theorem linspace_length (a b : ℚ) (n : ℕ) : (AtomicEntropy.linspace a b n).length = n := by
  rw [AtomicEntropy.linspace, List.length_map, List.length_range]

theorem rlistOf_length (rc sigma : ℚ) :
    (AtomicEntropy.rlistOf rc sigma).length = AtomicEntropy.nbinsOf rc sigma := by
  simp [AtomicEntropy.rlistOf, linspace_length]

theorem rlistSqOf_length (rc sigma : ℚ) :
    (AtomicEntropy.rlistSqOf rc sigma).length = AtomicEntropy.nbinsOf rc sigma := by
  simp [AtomicEntropy.rlistSqOf, rlistOf_length]

theorem prefactor0Of_length (ops : MathOps) (vol rc sigma : ℚ) (dl : List (List ℚ)) :
    (AtomicEntropy.prefactor0Of ops vol rc sigma dl).length =
      AtomicEntropy.nbinsOf rc sigma := by
  simp [AtomicEntropy.prefactor0Of, rlistSqOf_length]

theorem nbinsOf_ge_two (rc sigma : ℚ) (hs : 0 < sigma) (hsr : sigma ≤ rc) :
    2 ≤ AtomicEntropy.nbinsOf rc sigma := by
  have h1 : (1 : ℤ) ≤ ⌊rc / sigma⌋ := by
    rw [Int.le_floor]
    push_cast
    exact (one_le_div hs).mpr hsr
  rw [AtomicEntropy.nbinsOf]
  omega

theorem entropy_compute_isSome_of (ops : MathOps) (vol rc sigma : ℚ) (b : Bool)
    (dl : List (List ℚ)) (hs : 0 < sigma) (hsr : sigma ≤ rc) :
    (AtomicEntropy.compute ops vol rc sigma b dl).isSome := by
  have h2 := nbinsOf_ge_two rc sigma hs hsr
  have hp1 : (AtomicEntropy.prefactor0Of ops vol rc sigma dl)[1]?.isSome := by
    rw [isSome_getElem?, prefactor0Of_length]
    omega
  obtain ⟨p1, hp1eq⟩ := Option.isSome_iff_exists.mp hp1
  rw [AtomicEntropy.compute, hp1eq]
  simp only [Option.bind_eq_bind, Option.some_bind]
  rw [seqOpt_isSome_iff]
  rintro o ho
  obtain ⟨d, _, rfl⟩ := List.mem_map.mp ho
  exact entropyAtom_isSome ops rc sigma _ _ _ _ _ b d (rlistOf_length rc sigma)
    (rlistSqOf_length rc sigma)
    (by rw [List.length_set, prefactor0Of_length])

/-- C10: `AtomicEntropy.compute()` unconditionally reads prefactor index 1,
so (for positive `rc`, `sigma`) it is well-defined exactly when
`nbins = ⌊rc/sigma⌋ + 1 ≥ 2`, i.e. `sigma ≤ rc`; under that precondition
every index into `rlist`, `rlist_sq` and `prefactor` used by the computation
is in bounds, while for `rc < sigma` the index-1 access is out of bounds and
the computation aborts. -/
theorem entropy_compute_defined_iff (ops : MathOps) (vol rc sigma : ℚ) (b : Bool)
    (dl : List (List ℚ)) (hrc : 0 < rc) (hs : 0 < sigma) :
    (AtomicEntropy.compute ops vol rc sigma b dl).isSome ↔ sigma ≤ rc := by
  constructor
  · intro h
    by_contra hgt
    push_neg at hgt
    have hfl : ⌊rc / sigma⌋ = 0 := by
      rw [Int.floor_eq_zero_iff]
      exact ⟨div_nonneg hrc.le hs.le, (div_lt_one hs).mpr hgt⟩
    have hnb : AtomicEntropy.nbinsOf rc sigma = 1 := by
      rw [AtomicEntropy.nbinsOf, hfl]; rfl
    have hnone : (AtomicEntropy.prefactor0Of ops vol rc sigma dl)[1]? = none :=
      List.getElem?_eq_none (by rw [prefactor0Of_length, hnb])
    rw [AtomicEntropy.compute, hnone] at h
    simp at h
  · intro hsr
    exact entropy_compute_isSome_of ops vol rc sigma b dl hs hsr

/-- Witness for `entropy_compute_defined_iff` at a concrete input. -/
theorem entropy_compute_defined_iff_witness :
    ((0 : ℚ) < 2 ∧ (0 : ℚ) < 1) ∧
    ((AtomicEntropy.compute ⟨fun q => q, fun q => q, fun q => q, 3⟩ 4 2 1 false
        [[1 / 2]]).isSome ↔ (1 : ℚ) ≤ 2) :=
  ⟨⟨by decide, by decide⟩,
    entropy_compute_defined_iff ⟨fun q => q, fun q => q, fun q => q, 3⟩ 4 2 1 false
      [[1 / 2]] (by decide) (by decide)⟩

theorem entropyAtom_local_eq (ops : MathOps) (rc sigma gd : ℚ) (nbins : ℕ)
    (rl rsq pf : List ℚ) (d : List ℚ)
    (hdens : ((AtomicEntropy.nNeigh rc d : ℚ)) / (4 / 3 * ops.fpi * rc ^ 3) = gd)
    (hgd : gd ≠ 0) :
    AtomicEntropy.entropyAtom ops rc sigma gd nbins rl rsq pf true d =
      AtomicEntropy.entropyAtom ops rc sigma gd nbins rl rsq pf false d := by
  rw [AtomicEntropy.entropyAtom, AtomicEntropy.entropyAtom]
  simp only [if_true, Bool.false_eq_true, if_false]
  congr 1
  funext g
  rw [hdens, div_self hgd]
  simp [mul_one]

/-- C8: for an atom whose within-cutoff neighbor count satisfies
`n_neigh/((4/3)·π·rc³) = N/vol` (local density equal to the — nonzero —
global density), the atomic entropy computed with `use_local_density=true`
equals the value computed with `use_local_density=false`, all other inputs
identical. -/
theorem entropy_local_density_equal (ops : MathOps) (vol rc sigma : ℚ)
    (dl : List (List ℚ)) (i : ℕ) (dists : List ℚ)
    (hrc : 0 < rc) (hs : 0 < sigma) (hsr : sigma ≤ rc)
    (hrow : dl[i]? = some dists)
    (hdens : ((AtomicEntropy.nNeigh rc dists : ℚ)) / (4 / 3 * ops.fpi * rc ^ 3) =
      (dl.length : ℚ) / vol)
    (hgd : ((dl.length : ℚ) / vol) ≠ 0) :
    ((AtomicEntropy.compute ops vol rc sigma true dl).bind fun l => l[i]?) =
      ((AtomicEntropy.compute ops vol rc sigma false dl).bind fun l => l[i]?) := by
  have h2 := nbinsOf_ge_two rc sigma hs hsr
  have hp1 : (AtomicEntropy.prefactor0Of ops vol rc sigma dl)[1]?.isSome := by
    rw [isSome_getElem?, prefactor0Of_length]
    omega
  obtain ⟨p1, hp1eq⟩ := Option.isSome_iff_exists.mp hp1
  rw [AtomicEntropy.compute, AtomicEntropy.compute, hp1eq]
  simp only [Option.bind_eq_bind, Option.some_bind]
  have hlen : ∀ b : Bool, ∀ o ∈ dl.map (AtomicEntropy.entropyAtom ops rc sigma
      (AtomicEntropy.globalDensity vol dl) (AtomicEntropy.nbinsOf rc sigma)
      (AtomicEntropy.rlistOf rc sigma) (AtomicEntropy.rlistSqOf rc sigma)
      ((AtomicEntropy.prefactor0Of ops vol rc sigma dl).set 0 p1) b), o.isSome := by
    intro b o ho
    obtain ⟨d, _, rfl⟩ := List.mem_map.mp ho
    exact entropyAtom_isSome ops rc sigma _ _ _ _ _ b d (rlistOf_length rc sigma)
      (rlistSqOf_length rc sigma) (by rw [List.length_set, prefactor0Of_length])
  obtain ⟨LT, hLT⟩ := Option.isSome_iff_exists.mp ((seqOpt_isSome_iff _).mpr (hlen true))
  obtain ⟨LF, hLF⟩ := Option.isSome_iff_exists.mp ((seqOpt_isSome_iff _).mpr (hlen false))
  rw [hLT, hLF]
  simp only [Option.some_bind]
  have eT := seqOpt_getElem? _ _ hLT i
  have eF := seqOpt_getElem? _ _ hLF i
  rw [List.getElem?_map, hrow] at eT eF
  simp only [Option.map_some', Option.some_bind, id] at eT eF
  rw [eT, eF]
  exact entropyAtom_local_eq ops rc sigma (AtomicEntropy.globalDensity vol dl)
    (AtomicEntropy.nbinsOf rc sigma) _ _ _ dists
    (by rw [AtomicEntropy.globalDensity]; exact hdens)
    (by rw [AtomicEntropy.globalDensity]; exact hgd)

/-- Witness for `entropy_local_density_equal` at a concrete input: one atom
with one neighbor at distance 1/2, `rc = 1`, `pi` interpreted as 3, so
`local_vol = 4`, `n_neigh = 1`, local density `1/4` equals `N/vol = 1/4`. -/
theorem entropy_local_density_equal_witness :
    ((0 : ℚ) < 1 ∧ (0 : ℚ) < 1 ∧ (1 : ℚ) ≤ 1 ∧
      ([[1 / 2]] : List (List ℚ))[0]? = some [1 / 2] ∧
      ((AtomicEntropy.nNeigh 1 [1 / 2] : ℚ)) /
          (4 / 3 * (MathOps.mk (fun q => q) (fun q => q) (fun q => q) 3).fpi * 1 ^ 3) =
        (([[1 / 2]] : List (List ℚ)).length : ℚ) / 4 ∧
      (([[1 / 2]] : List (List ℚ)).length : ℚ) / 4 ≠ 0) ∧
    ((AtomicEntropy.compute (MathOps.mk (fun q => q) (fun q => q) (fun q => q) 3)
        4 1 1 true [[1 / 2]]).bind fun l => l[0]?) =
      ((AtomicEntropy.compute (MathOps.mk (fun q => q) (fun q => q) (fun q => q) 3)
        4 1 1 false [[1 / 2]]).bind fun l => l[0]?) := by
  have hdens : ((AtomicEntropy.nNeigh 1 [1 / 2] : ℚ)) /
      (4 / 3 * (MathOps.mk (fun q => q) (fun q => q) (fun q => q) 3).fpi * 1 ^ 3) =
      (([[1 / 2]] : List (List ℚ)).length : ℚ) / 4 := by
    norm_num [AtomicEntropy.nNeigh, List.filter]
  refine ⟨⟨by decide, by decide, by decide, rfl, hdens, by norm_num⟩, ?_⟩
  exact entropy_local_density_equal (MathOps.mk (fun q => q) (fun q => q) (fun q => q) 3)
    4 1 1 [[1 / 2]] 0 [1 / 2] (by decide) (by decide) (by decide) rfl hdens (by norm_num)

/-- C4 amended: the validation fails exactly when one of the three
upper-triangle edge components `box[0,1]`, `box[0,2]`, `box[1,2]` is nonzero;
the lower-triangle components `box[1,0]`, `box[2,0]`, `box[2,1]` are not
examined. -/
theorem replicate_box_check_iff (box : Fin 4 → Fin 3 → ℚ) :
    Replicate.boxCheck box = true ↔ (box 0 1 = 0 ∧ box 0 2 = 0 ∧ box 1 2 = 0) := by
  simp [Replicate.boxCheck, and_assoc]

theorem sum_update_add {M : Type} [AddCommGroup M] (f : ℕ → M) (N j : ℕ) (hj : j < N)
    (w : M) :
    ∑ x ∈ Finset.range N, Function.update f j (f j + w) x =
      (∑ x ∈ Finset.range N, f x) + w := by
  rw [Finset.sum_update_of_mem (Finset.mem_range.mpr hj)]
  rw [Finset.sum_eq_sum_diff_singleton_add (Finset.mem_range.mpr hj) f]
  abel

theorem sum_pair_update {N i j : ℕ} (f : ℕ → Vec3) (hi : i < N) (hj : j < N)
    (hij : i ≠ j) (v : Vec3) :
    ∑ x ∈ Finset.range N,
      (Function.update (Function.update f i (f i - v)) j
        ((Function.update f i (f i - v)) j + v)) x = ∑ x ∈ Finset.range N, f x := by
  set g := Function.update f i (f i - v) with hgdef
  rw [sum_update_add g N j hj v]
  have hsumg : ∑ x ∈ Finset.range N, g x = (∑ x ∈ Finset.range N, f x) + -v := by
    rw [hgdef, show f i - v = f i + -v from sub_eq_add_neg _ _]
    exact sum_update_add f N i hi (-v)
  rw [hsumg]
  abel

theorem foldl_sum_invariant {α : Type} (step : (ℕ → Vec3) → α → (ℕ → Vec3))
    (l : List α) (N : ℕ)
    (h : ∀ f a, a ∈ l →
      ∑ x ∈ Finset.range N, step f a x = ∑ x ∈ Finset.range N, f x)
    (f0 : ℕ → Vec3) :
    ∑ x ∈ Finset.range N, (l.foldl step f0) x = ∑ x ∈ Finset.range N, f0 x := by
  induction l generalizing f0 with
  | nil => rfl
  | cons a t ih =>
    rw [List.foldl_cons]
    rw [ih (fun f b hb => h f b (List.mem_cons_of_mem a hb)) (step f0 a)]
    exact h f0 a (List.mem_cons_self a t)

theorem pass3step_sum (t : EAMTables) (c : CalcInput) (d_embedded_rho : ℕ → ℚ)
    (hv : ∀ i < c.N, ∀ jj < c.neighbor_number i, c.verlet i jj < c.N)
    (f : ℕ → Vec3) (i jj : ℕ) (hi : i < c.N) (hjj : jj < c.neighbor_number i) :
    ∑ x ∈ Finset.range c.N, Calculator.pass3step t c d_embedded_rho f i jj x =
      ∑ x ∈ Finset.range c.N, f x := by
  rw [Calculator.pass3step]
  by_cases hij : c.verlet i jj > i
  · rw [if_pos hij]
    by_cases hr : c.distance i jj ≤ t.rc
    · rw [if_pos hr]
      exact sum_pair_update f hi (hv i hi jj hjj) (Nat.ne_of_lt hij) _
    · rw [if_neg hr]
  · rw [if_neg hij]

/-- C9: after `Calculator.compute()` the per-atom force vectors sum exactly
to the zero vector (in exact arithmetic): the force pass writes only
equal-and-opposite pair contributions — for each visited pair `(i, j)` with
`j > i` within the cutoff it subtracts `d_pair·rij/r` from `force[i]` and
adds the same vector to `force[j]` — and the force array is
zero-initialized, so the total vanishes for every configuration whose
neighbor indices are in range. -/
theorem calculator_force_sum_zero (t : EAMTables) (c : CalcInput)
    (hv : ∀ i < c.N, ∀ jj < c.neighbor_number i, c.verlet i jj < c.N) :
    ∑ x ∈ Finset.range c.N, Calculator.force t c x = (0 : Vec3) := by
  rw [Calculator.force, Calculator.iterPairs]
  rw [foldl_sum_invariant _ _ c.N
    (fun f i hi =>
      foldl_sum_invariant _ _ c.N
        (fun f2 jj hjj =>
          pass3step_sum t c _ hv f2 i jj (List.mem_range.mp hi) (List.mem_range.mp hjj))
        f)
    (fun _ => (0 : Vec3))]
  simp

/-- Witness for `calculator_force_sum_zero` on the two-atom configuration. -/
theorem calculator_force_sum_zero_witness :
    (∀ i < witnessInput.N, ∀ jj < witnessInput.neighbor_number i,
      witnessInput.verlet i jj < witnessInput.N) ∧
    ∑ x ∈ Finset.range witnessInput.N,
      Calculator.force witnessTables witnessInput x = (0 : Vec3) :=
  ⟨by decide, calculator_force_sum_zero witnessTables witnessInput (by decide)⟩

/-- C1 (evaluation at the failing input): a well-formed 5-column atomic
DATA file with no Velocities block — the file ending right after the atom
rows — makes `read_data` fail with `NameError` on the unassigned local
`if_vel`, instead of succeeding with the declared 2 atom rows; the same
file with a trailing blank line fails with `AttributeError` on the
never-assigned `self.data`. -/
theorem read_data_no_velocities_fails :
    readData c1DataFile = Except.error (PyErr.nameError "name if_vel is not defined") ∧
    readData c1DataFileTrailing = Except.error (PyErr.attributeError "data") := by
  exact ⟨rfl, rfl⟩

/-- C2 (evaluation at the failing input): `MultiSystem.__init__` stores the
unwrap flag as `self.unwarp` but reads `self.unwrap`, so construction with
`unwrap=True` (with any readable frame files) raises `AttributeError`
instead of loading, stacking, unwrapping and writing back. -/
theorem multisystem_init_attribute_error :
    MultiSystem.init [[((0 : ℚ), 0, 0)], [((1 : ℚ), 0, 0)]] true true =
      Except.error (PyErr.attributeError "unwrap") := rfl

/-- C5 (evaluation at the failing input): after `build_neighbor(rc=3.0)`
has filled the cache, `cal_common_neighbor_analysis(rc=3.0)` — requested
cutoff equal to the cached cutoff — takes neither rebuild branch and then
reads the unassigned local `Neigh`: a `NameError`, not a completed call
using the cached list. -/
theorem cal_cna_equal_cutoff_name_error :
    System.cal_common_neighbor_analysis (System.build_neighbor ⟨false, 0⟩ 3) 3 =
      Except.error (PyErr.nameError "name Neigh is not defined") := rfl

end Mdapy
